import Mathlib

/-!
Shallow embedding of the `skilld-labs/ansible_online_net` repository.

Two Python sources are modelled:
* `inventories/online_net/online_net.py` — the dynamic inventory script
  (CLI-argument defaults, the cache decision made in `__init__`,
  `is_cache_valid` and `build_index`);
* `modules/online_net/online_net.py` — the management plugin
  (`Server.state`, `Server.name`, `Server.rpn_groups`, `Server.bmc_close`,
  `Server.find` and the `core` dispatcher).

HTTP transport is represented by explicit oracles: each remote call is a
boolean (or data) outcome supplied as a parameter, and calls that mutate the
remote RPN-group state are applied to an explicit `List RpnGroup` model of
the remote side.
-/

namespace OnlineNet

/-! ## String helpers

Python `'rescue' in s` (substring containment) and
`s.replace('rescue-', '', 1)` (remove the first occurrence), modelled on
`List Char`. -/

/-- Python substring containment `pat in s`. -/
def containsSub (pat : List Char) : List Char → Bool
  | [] => pat.isEmpty
  | c :: t => pat.isPrefixOf (c :: t) || containsSub pat t

/-- Python `s.replace(pat, '', 1)`: remove the first occurrence of `pat`
(for a non-empty `pat`). -/
def replaceFirstOcc (pat : List Char) : List Char → List Char
  | [] => []
  | c :: t =>
    if pat.isPrefixOf (c :: t) then (c :: t).drop pat.length
    else c :: replaceFirstOcc pat t

theorem isPrefixOf_iff_append (p : List Char) :
    ∀ l : List Char, p.isPrefixOf l = true ↔ ∃ t, l = p ++ t := by
  induction p with
  | nil =>
    intro l
    simp [List.isPrefixOf]
  | cons a as ih =>
    intro l
    cases l with
    | nil =>
      simp [List.isPrefixOf]
    | cons b bs =>
      simp only [List.isPrefixOf, Bool.and_eq_true, beq_iff_eq, ih bs]
      constructor
      · rintro ⟨rfl, t, rfl⟩
        exact ⟨t, rfl⟩
      · rintro ⟨t, ht⟩
        cases ht
        exact ⟨rfl, t, rfl⟩

theorem containsSub_of_isPrefixOf (p l : List Char) (hp : p ≠ [])
    (h : p.isPrefixOf l = true) : containsSub p l = true := by
  cases l with
  | nil =>
    rcases (isPrefixOf_iff_append p []).mp h with ⟨t, ht⟩
    cases p with
    | nil => exact absurd rfl hp
    | cons a as => simp at ht
  | cons c t => simp [containsSub, h]

theorem replaceFirstOcc_of_isPrefixOf (p l : List Char) (hp : p ≠ [])
    (h : p.isPrefixOf l = true) : replaceFirstOcc p l = l.drop p.length := by
  cases l with
  | nil =>
    rcases (isPrefixOf_iff_append p []).mp h with ⟨t, ht⟩
    cases p with
    | nil => exact absurd rfl hp
    | cons a as => simp at ht
  | cons c t => simp [replaceFirstOcc, h]

/-! ## Inventory script: CLI arguments and the cache decision

From `OnlineNetInventory.read_cli_args` and `OnlineNetInventory.__init__`. -/

/-- Parsed argparse values that matter for the cache decision. -/
structure Args where
  list : Bool
  host : Option String
  all : Bool
  force_cache : Bool
  refresh_cache : Bool
deriving DecidableEq, Repr

/-- argparse `action='store_true'`: the stored value is `True` when the flag
is present on the command line, and the declared default otherwise. -/
def storeTrue (present dflt : Bool) : Bool :=
  if present then true else dflt

/-- Python truthiness of an optional string (`None` and `''` are falsy). -/
def truthyOptStr : Option String → Bool
  | none => false
  | some s => !s.isEmpty

/-- Flags actually present on the command line. -/
structure CliInput where
  listFlag : Bool
  hostArg : Option String
  allFlag : Bool
  forceCacheFlag : Bool
  refreshFlag : Bool
deriving DecidableEq, Repr

/-- The values argparse itself produces: note `--force-cache` is declared
`store_true` with `default=True`. -/
def cliDefaults (c : CliInput) : Args :=
  { list := storeTrue c.listFlag false
    host := c.hostArg
    all := storeTrue c.allFlag false
    force_cache := storeTrue c.forceCacheFlag true
    refresh_cache := storeTrue c.refreshFlag false }

/-- `read_cli_args`: the argparse defaults followed by the
`--list`-is-default fixup. -/
def readCliArgs (c : CliInput) : Args :=
  if !(cliDefaults c).all && !truthyOptStr (cliDefaults c).host then
    { cliDefaults c with list := true }
  else cliDefaults c

/-- One load step performed by `__init__` while managing the cache. -/
inductive LoadAction where
  | loadLive
  | loadCache
  | fatalExit
deriving DecidableEq, Repr

/-- The cache-management decision in `OnlineNetInventory.__init__`
(lines 171–185): which loads happen, in order.  `loadLive` stands for
`load_from_online_net`, which also overwrites the cache file. -/
def cacheDecision (args : Args) (cacheValid : Bool) (cacheNonEmpty : Bool) :
    List LoadAction :=
  if (!args.force_cache && args.refresh_cache) || !cacheValid then
    [LoadAction.loadLive]
  else if !cacheNonEmpty then
    if args.force_cache then [LoadAction.loadCache, LoadAction.fatalExit]
    else [LoadAction.loadCache, LoadAction.loadLive]
  else if !args.force_cache && (args.list || truthyOptStr args.host || args.all) then
    [LoadAction.loadCache, LoadAction.loadLive]
  else
    [LoadAction.loadCache]

/-! ## Inventory script: cache validity

`OnlineNetInventory.is_cache_valid`, with the file's existence, its
modification time and the current clock passed explicitly. -/

/-- `is_cache_valid`: the file exists and `mod_time + cache_max_age >
current_time`. -/
def isCacheValid (fileExists : Bool) (modTime maxAge now : Nat) : Bool :=
  if fileExists then
    if modTime + maxAge > now then true else false
  else false

/-! ## Inventory script: the index builder

`OnlineNetInventory.build_index`.  A record models the JSON server record;
`none` in a field means the key (or its containing sub-object) is absent,
in which case the Python chained subscript raises `KeyError`. -/

/-- A raw server record as far as `build_index` reads it. -/
structure SrvRecord where
  network_ip : Option (List String)
  id : Option Nat
  os_name : Option String
  datacenter : Option String
deriving DecidableEq, Repr

/-- Key extraction for one record: `Except.error ()` models the Python
`KeyError`/`IndexError` raised by the chained subscripts when the field,
its containing sub-object, or the first ip is absent; `Except.ok none`
is the `key = None` case reached only for an unsupported `index_key`. -/
def extractKey (r : SrvRecord) (index_key : String) : Except Unit (Option String) :=
  if index_key = "network.ip" then
    match r.network_ip with
    | none => Except.error ()
    | some ips =>
      match ips.head? with
      | none => Except.error ()
      | some ip => Except.ok (some ip)
  else if index_key = "id" then
    match r.id with
    | none => Except.error ()
    | some i => Except.ok (some (toString i))
  else if index_key = "os.name" then
    match r.os_name with
    | none => Except.error ()
    | some n => Except.ok (some n)
  else if index_key = "location.datacenter" then
    match r.datacenter with
    | none => Except.error ()
    | some d => Except.ok (some d)
  else
    Except.ok none

/-- `OnlineNetInventory.push`: append an element to the bucket of `key`,
creating the bucket if needed (association-list rendering of the dict). -/
def push (d : List (String × List Nat)) (key : String) (element : Nat) :
    List (String × List Nat) :=
  match d with
  | [] => [(key, [element])]
  | (k, v) :: t => if k = key then (k, v ++ [element]) :: t else (k, v) :: push t key element

/-- The `build_index` loop over `enumerate(data)`: `i` is the running
position, `idx` the index built so far; `none` models the uncaught
exception aborting the build. -/
def buildIndexAux (index_key : String) :
    List SrvRecord → Nat → List (String × List Nat) → Option (List (String × List Nat))
  | [], _, idx => some idx
  | r :: t, i, idx =>
    match extractKey r index_key with
    | Except.error _ => none
    | Except.ok none => buildIndexAux index_key t (i + 1) idx
    | Except.ok (some k) => buildIndexAux index_key t (i + 1) (push idx k i)

/-- `OnlineNetInventory.build_index`. -/
def buildIndex (data : List SrvRecord) (index_key : String) :
    Option (List (String × List Nat)) :=
  buildIndexAux index_key data 0 []

theorem buildIndexAux_eq_none_iff (index_key : String) :
    ∀ (l : List SrvRecord) (i : Nat) (idx : List (String × List Nat)),
      buildIndexAux index_key l i idx = none ↔
        ∃ r, r ∈ l ∧ extractKey r index_key = Except.error () := by
  intro l
  induction l with
  | nil => intro i idx; simp [buildIndexAux]
  | cons r t ih =>
    intro i idx
    cases h : extractKey r index_key with
    | error e =>
      cases e
      constructor
      · intro _
        exact ⟨r, List.mem_cons_self r t, h⟩
      · intro _
        simp [buildIndexAux, h]
    | ok k =>
      have step : ∀ i' idx', buildIndexAux index_key (r :: t) i' idx' = none ↔
          ∃ r', r' ∈ t ∧ extractKey r' index_key = Except.error () := by
        intro i' idx'
        cases k with
        | none => simp only [buildIndexAux, h]; exact ih _ _
        | some k => simp only [buildIndexAux, h]; exact ih _ _
      rw [step i idx]
      constructor
      · rintro ⟨r', hr', he⟩
        exact ⟨r', List.mem_cons_of_mem r hr', he⟩
      · rintro ⟨r', hr', he⟩
        rcases List.mem_cons.mp hr' with heq | hr'
        · subst heq; rw [h] at he; exact absurd he (by simp)
        · exact ⟨r', hr', he⟩

/-! ## Management plugin: RPN groups and the reconciler

From `Server.rpn_groups`.  The remote side is a `List RpnGroup`; a call
that succeeds applies its documented effect, a call that fails (the API
returned a non-2xx status, i.e. `None`) leaves it unchanged.  Per-call
outcomes are supplied by oracles keyed by the call's argument. -/

/-- A remote RPN group: id, name, and its member server ids. -/
structure RpnGroup where
  id : Nat
  name : String
  members : List Nat
deriving DecidableEq, Repr

/-- The `groups_names_to_ids` dict built by the first loop of
`rpn_groups`; a later group's binding overwrites an earlier one, so the
lookup prefers the tail (later iterations). -/
def groupsNamesToIds : List RpnGroup → String → Option Nat
  | [] => fun _ => none
  | g :: t => fun n =>
    match groupsNamesToIds t n with
    | some i => some i
    | none => if n = g.name then some g.id else none

/-- The `server_groups` list of the first loop: ids of the fetched groups
having the server among their members, in order of appearance. -/
def serverGroupIds (gs : List RpnGroup) (sid : Nat) : List Nat :=
  gs.filterMap fun g => if sid ∈ g.members then some g.id else none

/-- Remote effect of a successful `rpn/group/removeServers` call. -/
def remStep (sid : Nat) (g : RpnGroup) (gid : Nat) : RpnGroup :=
  if g.id = gid then { g with members := g.members.filter fun m => m ≠ sid } else g

/-- Remote effect of a successful `rpn/group/addServers` call. -/
def addStep (sid : Nat) (g : RpnGroup) (gid : Nat) : RpnGroup :=
  if g.id = gid then { g with members := g.members ++ [sid] } else g

def removeServerFromGroup (r : List RpnGroup) (gid sid : Nat) : List RpnGroup :=
  r.map fun g => remStep sid g gid

def addServerToGroup (r : List RpnGroup) (gid sid : Nat) : List RpnGroup :=
  r.map fun g => addStep sid g gid

/-- The creation loop of `rpn_groups`: every joined name absent from the
(never-updated) `groups_names_to_ids` map triggers a `rpn/group` creation
call, passing the server as initial member; the call's result is ignored.
`fresh` supplies remote ids for newly created groups. -/
def doCreates (m : String → Option Nat) (sid : Nat) (createOk : String → Bool) :
    List String → Nat → List RpnGroup → List RpnGroup
  | [], _, r => r
  | n :: t, fresh, r =>
    match m n with
    | some _ => doCreates m sid createOk t fresh r
    | none =>
      if createOk n then doCreates m sid createOk t (fresh + 1) (r ++ [⟨fresh, n, [sid]⟩])
      else doCreates m sid createOk t fresh r

/-- The removal loop: remove the server from every group it was a member
of, tracking `sync_success` across all removal calls. -/
def doRemoves (sid : Nat) (removeOk : Nat → Bool) :
    List Nat → List RpnGroup → List RpnGroup × Bool
  | [], r => (r, true)
  | gid :: t, r =>
    let ok := removeOk gid
    let r1 := if ok then removeServerFromGroup r gid sid else r
    let p := doRemoves sid removeOk t r1
    (p.1, ok && p.2)

/-- The addition loop: add the server to each joined group by name lookup;
`none` models the `KeyError` raised when a joined name is absent from
`groups_names_to_ids` (which creation never updates).  Returns the new
remote state, the recorded `server_groups` entries `(id, name)` of the
adds that succeeded, and the conjunction of the add calls' outcomes. -/
def doAdds (m : String → Option Nat) (sid : Nat) (addOk : String → Bool) :
    List String → List RpnGroup → Option (List RpnGroup × List (Nat × String) × Bool)
  | [], r => some (r, [], true)
  | n :: t, r =>
    match m n with
    | none => none
    | some gid =>
      let ok := addOk n
      let r1 := if ok then addServerToGroup r gid sid else r
      match doAdds m sid addOk t r1 with
      | none => none
      | some q => some (q.1, (if ok then [(gid, n)] else []) ++ q.2.1, ok && q.2.2)

/-- Result of `Server.rpn_groups`: the remote RPN state after all calls,
the server's recorded group list (`self.groups`), and the returned
`sync_success` flag. -/
structure SyncOut where
  remote : List RpnGroup
  groups : List (Nat × String)
  success : Bool
deriving DecidableEq, Repr

/-- `Server.rpn_groups`: fetch the groups (`gs`), build the name→id map
and the server's current group list, create missing groups, remove the
server from every current group, then add it to every joined group.
`none` models the uncaught `KeyError` of the addition loop. -/
def rpnGroupsSync (gs : List RpnGroup) (sid : Nat) (join_groups : List String)
    (createOk : String → Bool) (removeOk : Nat → Bool) (addOk : String → Bool)
    (fresh : Nat) : Option SyncOut :=
  let m := groupsNamesToIds gs
  let server_groups := serverGroupIds gs sid
  let r1 := doCreates m sid createOk join_groups fresh gs
  let pr := doRemoves sid removeOk server_groups r1
  match doAdds m sid addOk join_groups pr.1 with
  | none => none
  | some q => some ⟨q.1, q.2.1, pr.2 && q.2.2⟩

/-! ### Reconciler lemmas -/

theorem groupsNamesToIds_isSome_of_mem (gs : List RpnGroup) (g0 : RpnGroup)
    (hg0 : g0 ∈ gs) : (groupsNamesToIds gs g0.name).isSome = true := by
  induction gs with
  | nil => exact absurd hg0 (List.not_mem_nil g0)
  | cons g t ih =>
    simp only [groupsNamesToIds]
    cases ht : groupsNamesToIds t g0.name with
    | some i => rfl
    | none =>
      rcases List.mem_cons.mp hg0 with heq | hg0'
      · subst heq
        rw [if_pos rfl]
        rfl
      · have := ih hg0'
        rw [ht] at this
        exact absurd this (by simp)

theorem groupsNamesToIds_eq_some (gs : List RpnGroup) (n : String) (i : Nat)
    (h : groupsNamesToIds gs n = some i) :
    ∃ g, g ∈ gs ∧ g.name = n ∧ g.id = i := by
  induction gs with
  | nil => simp [groupsNamesToIds] at h
  | cons g t ih =>
    simp only [groupsNamesToIds] at h
    cases ht : groupsNamesToIds t n with
    | some j =>
      rw [ht] at h
      cases h
      rcases ih ht with ⟨g', hg', hn, hi⟩
      exact ⟨g', List.mem_cons_of_mem g hg', hn, hi⟩
    | none =>
      rw [ht] at h
      by_cases hn : n = g.name
      · rw [if_pos hn] at h
        cases h
        exact ⟨g, List.mem_cons_self g t, hn.symm, rfl⟩
      · rw [if_neg hn] at h
        exact absurd h (by simp)

theorem doCreates_noop (m : String → Option Nat) (sid : Nat) (createOk : String → Bool) :
    ∀ (l : List String) (fresh : Nat) (r : List RpnGroup),
      (∀ n, n ∈ l → (m n).isSome = true) → doCreates m sid createOk l fresh r = r := by
  intro l
  induction l with
  | nil => intro fresh r _; rfl
  | cons n t ih =>
    intro fresh r h
    have hn : (m n).isSome = true := h n (List.mem_cons_self n t)
    rcases Option.isSome_iff_exists.mp hn with ⟨v, hv⟩
    simp only [doCreates, hv]
    exact ih fresh r fun n' hn' => h n' (List.mem_cons_of_mem n hn')

theorem doRemoves_eq (sid : Nat) (removeOk : Nat → Bool) :
    ∀ (l : List Nat) (r : List RpnGroup),
      doRemoves sid removeOk l r =
        (l.foldl (fun r gid => if removeOk gid then removeServerFromGroup r gid sid else r) r,
         l.all removeOk) := by
  intro l
  induction l with
  | nil => intro r; rfl
  | cons gid t ih =>
    intro r
    simp only [doRemoves, ih, List.foldl_cons, List.all_cons]

theorem doAdds_eq (m : String → Option Nat) (sid : Nat) (addOk : String → Bool) :
    ∀ (l : List String) (r : List RpnGroup),
      (∀ n, n ∈ l → (m n).isSome = true) →
      doAdds m sid addOk l r = some
        (l.foldl (fun r n => if addOk n then addServerToGroup r ((m n).getD 0) sid else r) r,
         l.filterMap (fun n => if addOk n then some ((m n).getD 0, n) else none),
         l.all addOk) := by
  intro l
  induction l with
  | nil => intro r _; rfl
  | cons n t ih =>
    intro r h
    have hn : (m n).isSome = true := h n (List.mem_cons_self n t)
    rcases Option.isSome_iff_exists.mp hn with ⟨gid, hv⟩
    have ht : ∀ n', n' ∈ t → (m n').isSome = true :=
      fun n' hn' => h n' (List.mem_cons_of_mem n hn')
    simp only [doAdds, hv, ih _ ht, List.foldl_cons, List.filterMap_cons, List.all_cons,
      Option.getD_some]
    cases hok : addOk n with
    | true => simp [hv]
    | false => simp [hv]

theorem foldl_map_rpn (f : RpnGroup → Nat → RpnGroup) :
    ∀ (l : List Nat) (r : List RpnGroup),
      l.foldl (fun r gid => r.map fun g => f g gid) r = r.map fun g => l.foldl f g := by
  intro l
  induction l with
  | nil =>
    intro r
    simp
  | cons a t ih =>
    intro r
    simp only [List.foldl_cons, ih, List.map_map]
    rfl

theorem remStep_id (sid : Nat) (g : RpnGroup) (gid : Nat) :
    (remStep sid g gid).id = g.id ∧ (remStep sid g gid).name = g.name := by
  unfold remStep
  by_cases h : g.id = gid
  · rw [if_pos h]; exact ⟨rfl, rfl⟩
  · rw [if_neg h]; exact ⟨rfl, rfl⟩

theorem addStep_id (sid : Nat) (g : RpnGroup) (gid : Nat) :
    (addStep sid g gid).id = g.id ∧ (addStep sid g gid).name = g.name := by
  unfold addStep
  by_cases h : g.id = gid
  · rw [if_pos h]; exact ⟨rfl, rfl⟩
  · rw [if_neg h]; exact ⟨rfl, rfl⟩

theorem foldl_remStep_id (sid : Nat) :
    ∀ (l : List Nat) (g : RpnGroup),
      (l.foldl (remStep sid) g).id = g.id ∧ (l.foldl (remStep sid) g).name = g.name := by
  intro l
  induction l with
  | nil => intro g; exact ⟨rfl, rfl⟩
  | cons a t ih =>
    intro g
    rcases ih (remStep sid g a) with ⟨h1, h2⟩
    rcases remStep_id sid g a with ⟨h3, h4⟩
    exact ⟨h1.trans h3, h2.trans h4⟩

theorem foldl_addStep_id (sid : Nat) :
    ∀ (l : List Nat) (g : RpnGroup),
      (l.foldl (addStep sid) g).id = g.id ∧ (l.foldl (addStep sid) g).name = g.name := by
  intro l
  induction l with
  | nil => intro g; exact ⟨rfl, rfl⟩
  | cons a t ih =>
    intro g
    rcases ih (addStep sid g a) with ⟨h1, h2⟩
    rcases addStep_id sid g a with ⟨h3, h4⟩
    exact ⟨h1.trans h3, h2.trans h4⟩

theorem mem_foldl_remStep (sid : Nat) :
    ∀ (l : List Nat) (g : RpnGroup),
      sid ∈ (l.foldl (remStep sid) g).members ↔ sid ∈ g.members ∧ g.id ∉ l := by
  intro l
  induction l with
  | nil => intro g; simp
  | cons a t ih =>
    intro g
    rw [List.foldl_cons, ih]
    by_cases h : g.id = a
    · have hstep : remStep sid g a = { g with members := g.members.filter fun m => m ≠ sid } := by
        unfold remStep; rw [if_pos h]
      rw [hstep]
      simp only [List.mem_filter]
      constructor
      · rintro ⟨⟨_, habs⟩, _⟩
        simp at habs
      · rintro ⟨_, hnot⟩
        exact absurd (by rw [h]; exact List.mem_cons_self a t) hnot
    · have hstep : remStep sid g a = g := by unfold remStep; rw [if_neg h]
      rw [hstep]
      constructor
      · rintro ⟨hm, hnt⟩
        exact ⟨hm, by
          intro hmem
          rcases List.mem_cons.mp hmem with heq | hmem'
          · exact h heq
          · exact hnt hmem'⟩
      · rintro ⟨hm, hnot⟩
        exact ⟨hm, fun hmem => hnot (List.mem_cons_of_mem a hmem)⟩

theorem mem_foldl_addStep (sid : Nat) :
    ∀ (l : List Nat) (g : RpnGroup),
      sid ∈ (l.foldl (addStep sid) g).members ↔ sid ∈ g.members ∨ g.id ∈ l := by
  intro l
  induction l with
  | nil => intro g; simp
  | cons a t ih =>
    intro g
    rw [List.foldl_cons, ih]
    by_cases h : g.id = a
    · have hstep : addStep sid g a = { g with members := g.members ++ [sid] } := by
        unfold addStep; rw [if_pos h]
      rw [hstep]
      simp only [List.mem_append, List.mem_singleton]
      constructor
      · intro _
        exact Or.inr (by rw [h]; exact List.mem_cons_self a t)
      · intro _
        exact Or.inl (Or.inr trivial)
    · have hstep : addStep sid g a = g := by unfold addStep; rw [if_neg h]
      rw [hstep]
      constructor
      · rintro (hm | hmem)
        · exact Or.inl hm
        · exact Or.inr (List.mem_cons_of_mem a hmem)
      · rintro (hm | hmem)
        · exact Or.inl hm
        · rcases List.mem_cons.mp hmem with heq | hmem'
          · exact absurd heq h
          · exact Or.inr hmem'

theorem mem_serverGroupIds (gs : List RpnGroup) (sid : Nat) (g : RpnGroup)
    (hg : g ∈ gs) (hm : sid ∈ g.members) : g.id ∈ serverGroupIds gs sid := by
  unfold serverGroupIds
  exact List.mem_filterMap.mpr ⟨g, hg, by rw [if_pos hm]⟩

/-! ## Management plugin: the `Server` object and its operations

Mutable attributes of the Python `Server` touched by the modelled
operations.  `power` and `boot_mode` are the raw strings of the API
(`'ON'`/`'OFF'`, `'rescue-…'`/`'normal'`/…). -/

/-- The `Server` object's state. -/
structure Srv where
  id : Nat
  power : String
  boot_mode : String
  hostname : String
  changed : Bool
  groups : List (Nat × String)
  bmcKey : Option String
deriving DecidableEq, Repr

/-- A remote API call issued by a server operation. -/
inductive ApiCall where
  | getServer (id : Nat)
  | bootNormal (id : Nat)
  | shutdown (id : Nat)
  | bootRescue (id : Nat) (image : String)
  | reboot (id : Nat)
  | bmcCloseCall (session_key : String)
deriving DecidableEq, Repr

/-- `Server.state`: the requested state is the raw module parameter
string; `ok` is the outcome of the single API call the branch may issue.
Returns (return value, new server state, API calls issued).  The reboot
branch assigns the call's result to `self.changed` (it does not
accumulate), and selects rescue boot when `'rescue' in self.boot_mode`,
with image `boot_mode.replace('rescue-', '', 1)`. -/
def serverStateOp (ok : Bool) (sv : Srv) (st : String) : Bool × Srv × List ApiCall :=
  if st = "on" then
    if sv.power = "OFF" then
      if ok then (true, { sv with power := "ON", changed := true }, [ApiCall.bootNormal sv.id])
      else (false, sv, [ApiCall.bootNormal sv.id])
    else (false, sv, [])
  else if st = "off" then
    if sv.power = "ON" then
      if ok then (true, { sv with power := "OFF", changed := true }, [ApiCall.shutdown sv.id])
      else (false, sv, [ApiCall.shutdown sv.id])
    else (false, sv, [])
  else if st = "reboot" then
    if containsSub "rescue".data sv.boot_mode.data then
      (ok, { sv with changed := ok },
        [ApiCall.bootRescue sv.id (String.mk (replaceFirstOcc "rescue-".data sv.boot_mode.data))])
    else
      (ok, { sv with changed := ok }, [ApiCall.reboot sv.id])
  else (false, sv, [])

/-- `Server.name`: update the hostname via a PUT; on success record the
new hostname and set `changed`. -/
def nameOp (ok : Bool) (sv : Srv) (n : String) : Bool × Srv :=
  if ok then (true, { sv with hostname := n, changed := true }) else (false, sv)

/-- `Server.bmc_close`: `self.bmc['session_key'] = None` happens first,
then the DELETE call is issued and its result returned. -/
def bmcCloseOp (ok : Bool) (sv : Srv) (session_key : String) : Bool × Srv × List ApiCall :=
  (ok, { sv with bmcKey := none }, [ApiCall.bmcCloseCall session_key])

/-- Python truthiness of the numeric server id (`not server_id`). -/
def idTruthy : Option Nat → Bool
  | none => false
  | some n => n != 0

/-- `Server.find`: a falsy id returns `False` without any API call;
otherwise one GET is issued and a falsy response also yields `False`.
`Server.__init__` resets `changed` to `False` on the freshly built
object. -/
def findServer (server_id : Option Nat) (apiResult : Option Srv) :
    Option Srv × List ApiCall :=
  if idTruthy server_id then
    match apiResult with
    | none => (none, [ApiCall.getServer (server_id.getD 0)])
    | some sv => (some { sv with changed := false }, [ApiCall.getServer (server_id.getD 0)])
  else (none, [])

/-! ## Management plugin: the `core` dispatcher -/

/-- Python truthiness of an optional list parameter. -/
def truthyOptList : Option (List String) → Bool
  | none => false
  | some l => !l.isEmpty

/-- The module parameters consumed by `core`. -/
structure CoreParams where
  server_id : Option Nat
  hostname : Option String
  rpn_groups : Option (List String)
  rescue_images : Bool
  bmc : Option String
  bmc_close : Option String
  boot_mode : Option String
  state : Option String

/-- Outcomes of every remote call `core` may issue, supplied up front. -/
structure ApiOracle where
  findResult : Option Srv
  renameOk : Bool
  rpnRemote : List RpnGroup
  createOk : String → Bool
  removeOk : Nat → Bool
  addOk : String → Bool
  freshId : Nat
  rescueImagesResult : List String
  bmcSession : Option String
  bmcPolls : Nat → Bool
  bmcCloseOk : Bool
  stateOk : Bool

/-- One entry of the `output` list `core` accumulates. -/
inductive OpResult where
  | hostnameR (ok : Bool)
  | rpnGroupsR (ok : Bool)
  | rescueImagesR (images : List String)
  | bmcR (auth : Option String)
  | bmcCloseR (ok : Bool)
  | stateR (ok : Bool)
deriving DecidableEq, Repr

/-- How the single `core` invocation ends: `failed` is `fail_json`
(directly or via the exception handler in `main`), `finished` is
`exit_json` with the aggregate changed flag, the final server state and
the output list; `diverged` marks the unbounded BMC polling loop not
terminating within the supplied fuel. -/
inductive CoreOutcome where
  | failed (msg : String)
  | finished (changed : Bool) (server : Srv) (output : List OpResult)
  | diverged
deriving DecidableEq, Repr

/-- The BMC session polling loop (`while not authentication`), bounded by
fuel: returns the index of the first successful poll. -/
def bmcPollLoop (polls : Nat → Bool) : Nat → Nat → Option Nat
  | 0, _ => none
  | fuel + 1, i => if polls i then some i else bmcPollLoop polls fuel (i + 1)

/-- `Server._bmc`: open a session; a falsy session key returns `False`
without polling, otherwise poll until authenticated and set `changed`. -/
def bmcOpen (o : ApiOracle) (fuel : Nat) (sv : Srv) : Option (Option String × Srv) :=
  match o.bmcSession with
  | none => some (none, sv)
  | some k =>
    match bmcPollLoop o.bmcPolls fuel 0 with
    | none => none
    | some _ => some (some k, { sv with changed := true })

/-- `core`: find the server, then apply the requested sub-operations in
the source's fixed order (hostname, rpn_groups, rescue_images, bmc,
bmc_close, boot_mode assignment, state), accumulating the output list,
and exit with `server.has_changed()`. -/
def coreRun (p : CoreParams) (o : ApiOracle) (fuel : Nat) : CoreOutcome :=
  match (findServer p.server_id o.findResult).1 with
  | none => CoreOutcome.failed "Unable to find the server"
  | some sv0 =>
    let st1 : List OpResult × Srv :=
      if truthyOptStr p.hostname then
        let r := nameOp o.renameOk sv0 (p.hostname.getD "")
        ([OpResult.hostnameR r.1], r.2)
      else ([], sv0)
    match (if truthyOptList p.rpn_groups then
            (rpnGroupsSync o.rpnRemote st1.2.id (p.rpn_groups.getD [])
                o.createOk o.removeOk o.addOk o.freshId).map
              (fun out => (st1.1 ++ [OpResult.rpnGroupsR out.success],
                           { st1.2 with groups := out.groups }))
          else some st1) with
    | none => CoreOutcome.failed "KeyError"
    | some st2 =>
      let st3 : List OpResult × Srv :=
        if p.rescue_images then (st2.1 ++ [OpResult.rescueImagesR o.rescueImagesResult], st2.2)
        else st2
      match (if truthyOptStr p.bmc then
              (bmcOpen o fuel st3.2).map fun q => (st3.1 ++ [OpResult.bmcR q.1], q.2)
            else some st3) with
      | none => CoreOutcome.diverged
      | some st4 =>
        let st5 : List OpResult × Srv :=
          if truthyOptStr p.bmc_close then
            let r := bmcCloseOp o.bmcCloseOk st4.2 (p.bmc_close.getD "")
            (st4.1 ++ [OpResult.bmcCloseR r.1], r.2.1)
          else st4
        let st6 : List OpResult × Srv :=
          if truthyOptStr p.boot_mode then (st5.1, { st5.2 with boot_mode := p.boot_mode.getD "" })
          else st5
        let st7 : List OpResult × Srv :=
          if truthyOptStr p.state then
            let r := serverStateOp o.stateOk st6.2 (p.state.getD "")
            (st6.1 ++ [OpResult.stateR r.1], r.2.1)
          else st6
        CoreOutcome.finished st7.2.changed st7.2 st7.1

theorem contains_rescue_of_prefixed (l : List Char)
    (h : "rescue-".data.isPrefixOf l = true) :
    containsSub "rescue".data l = true := by
  rcases (isPrefixOf_iff_append _ l).mp h with ⟨t, ht⟩
  have hsplit : "rescue-".data = "rescue".data ++ ['-'] := by decide
  have hpre : "rescue".data.isPrefixOf l = true :=
    (isPrefixOf_iff_append _ l).mpr
      ⟨'-' :: t, by rw [ht, hsplit, List.append_assoc]; rfl⟩
  exact containsSub_of_isPrefixOf _ l (by decide) hpre

/-! # Claims -/

/-- C8: the cache validity check returns true iff the cache file exists
and `mtime + max_age` is strictly greater than the current time; for a
missing file, or one at least `max_age` old, it returns false. -/
theorem C8_is_cache_valid (fileExists : Bool) (modTime maxAge now : Nat) :
    (isCacheValid fileExists modTime maxAge now = true ↔
      (fileExists = true ∧ modTime + maxAge > now)) ∧
    isCacheValid false modTime maxAge now = false ∧
    (modTime + maxAge ≤ now → isCacheValid fileExists modTime maxAge now = false) := by
  unfold isCacheValid
  refine ⟨?_, rfl, ?_⟩
  · cases fileExists
    · simp
    · by_cases h : modTime + maxAge > now
      · simp [h]
      · simp [h]
  · intro h
    have hnot : ¬modTime + maxAge > now := Nat.not_lt.mpr h
    cases fileExists
    · rfl
    · simp [hnot]

/-- Witness for C8: a file 10 s old with max-age 60 is valid; one 60 s
old is not; a missing file never is. -/
theorem C8_is_cache_valid_witness :
    isCacheValid true 100 60 110 = true ∧
    isCacheValid true 100 60 160 = false ∧
    isCacheValid false 100 60 110 = false :=
  ⟨(C8_is_cache_valid true 100 60 110).1.mpr ⟨rfl, by decide⟩,
   (C8_is_cache_valid true 100 60 160).2.2 (by decide),
   (C8_is_cache_valid false 100 60 110).2.1⟩

/-- C2 (code bug): `--force-cache` is declared `store_true` with
`default=True`, so it is always on.  With a plain `--list` invocation and
a valid, non-empty cache, `__init__` only loads from the cache and never
performs the live fetch the script's own docstring promises for the
listing operations. -/
theorem C2_force_cache_default_code_bug :
    (∀ c : CliInput, (readCliArgs c).force_cache = true) ∧
    cacheDecision (readCliArgs ⟨true, none, false, false, false⟩) true true =
      [LoadAction.loadCache] ∧
    LoadAction.loadLive ∉
      cacheDecision (readCliArgs ⟨true, none, false, false, false⟩) true true := by
  refine ⟨?_, by decide, by decide⟩
  intro c
  have hbase : (cliDefaults c).force_cache = true := by
    show storeTrue c.forceCacheFlag true = true
    cases c.forceCacheFlag <;> rfl
  unfold readCliArgs
  split
  · exact hbase
  · exact hbase

/-- C6 counterexample: the index builder does fail on a record missing
the field.  With field `id` and a second record lacking `id`, the whole
build aborts (`KeyError`) and even the first, complete record is not
indexed — refuting "never fails / skipped silently / others indexed". -/
theorem C6_counterexample :
    buildIndex
      [⟨some ["1.2.3.4"], some 5, some "ubuntu", some "dc3"⟩,
       ⟨some ["2.3.4.5"], none, some "debian", some "dc2"⟩] "id" = none := by
  decide

/-- C6 amended: the index builder fails (an uncaught lookup error,
indexing nothing) exactly when some record is missing the requested field
or its containing sub-object (or, for the ip field, has an empty ip
list); only an unsupported field name yields `key = None` and a silent
skip. -/
theorem C6_build_index_amended (data : List SrvRecord) (index_key : String) :
    buildIndex data index_key = none ↔
      ∃ r, r ∈ data ∧ extractKey r index_key = Except.error () :=
  buildIndexAux_eq_none_iff index_key data 0 []

/-- C7: requesting `on` on an already-ON server, or `off` on an
already-OFF server, issues no API call, returns false and leaves the
server (power and changed flag included) untouched. -/
theorem C7_power_noop (sv : Srv) (ok : Bool) :
    (sv.power = "ON" → serverStateOp ok sv "on" = (false, sv, [])) ∧
    (sv.power = "OFF" → serverStateOp ok sv "off" = (false, sv, [])) := by
  constructor
  · intro h
    unfold serverStateOp
    rw [if_pos rfl, if_neg (by rw [h]; decide)]
  · intro h
    unfold serverStateOp
    rw [if_neg (by decide), if_pos rfl, if_neg (by rw [h]; decide)]

def svON : Srv := ⟨1337, "ON", "normal", "host1", false, [], none⟩

def svOFF : Srv := ⟨1338, "OFF", "normal", "host2", false, [], none⟩

/-- Witness for C7 at two concrete servers. -/
theorem C7_power_noop_witness :
    serverStateOp true svON "on" = (false, svON, []) ∧
    serverStateOp true svOFF "off" = (false, svOFF, []) :=
  ⟨(C7_power_noop svON true).1 rfl, (C7_power_noop svOFF true).2 rfl⟩

def svRescue : Srv := ⟨1337, "ON", "rescue", "h", false, [], none⟩

/-- C4 counterexample: with `boot_mode = "rescue"` (which contains
`rescue` but is not prefixed by `rescue-`), `state=reboot` issues a
rescue boot, not the normal reboot the claim requires. -/
theorem C4_counterexample :
    (serverStateOp true svRescue "reboot").2.2 = [ApiCall.bootRescue 1337 "rescue"] ∧
    "rescue-".data.isPrefixOf "rescue".data = false := by
  exact ⟨by decide, by decide⟩

/-- C4 amended: `state=reboot` issues a rescue boot exactly when
`boot_mode` contains `rescue` as a substring (not only as a prefix), with
image name `boot_mode` minus its first `rescue-` occurrence; when
`boot_mode` is prefixed by `rescue-` the image is precisely the suffix
after the prefix; any `boot_mode` not containing `rescue` issues a normal
reboot. -/
theorem C4_reboot_rescue_amended (sv : Srv) (ok : Bool) :
    ((serverStateOp ok sv "reboot").2.2 =
        [ApiCall.bootRescue sv.id
          (String.mk (replaceFirstOcc "rescue-".data sv.boot_mode.data))] ↔
      containsSub "rescue".data sv.boot_mode.data = true) ∧
    (containsSub "rescue".data sv.boot_mode.data = false →
      (serverStateOp ok sv "reboot").2.2 = [ApiCall.reboot sv.id]) ∧
    ("rescue-".data.isPrefixOf sv.boot_mode.data = true →
      (serverStateOp ok sv "reboot").2.2 =
        [ApiCall.bootRescue sv.id (String.mk (sv.boot_mode.data.drop 7))]) := by
  have hshape : (serverStateOp ok sv "reboot").2.2 =
      if containsSub "rescue".data sv.boot_mode.data then
        [ApiCall.bootRescue sv.id
          (String.mk (replaceFirstOcc "rescue-".data sv.boot_mode.data))]
      else [ApiCall.reboot sv.id] := by
    unfold serverStateOp
    rw [if_neg (by decide), if_neg (by decide), if_pos rfl]
    by_cases hc : containsSub "rescue".data sv.boot_mode.data
    · rw [if_pos hc, if_pos hc]
    · rw [if_neg hc, if_neg hc]
  refine ⟨?_, ?_, ?_⟩
  · rw [hshape]
    by_cases hc : containsSub "rescue".data sv.boot_mode.data
    · simp [hc]
    · simp [hc]
  · intro hc
    rw [hshape, if_neg (by rw [hc]; decide)]
  · intro hpre
    have hc : containsSub "rescue".data sv.boot_mode.data = true :=
      contains_rescue_of_prefixed _ hpre
    have hlen : "rescue-".data.length = 7 := by decide
    rw [hshape, if_pos hc,
      replaceFirstOcc_of_isPrefixOf "rescue-".data sv.boot_mode.data (by decide) hpre, hlen]

def svRescueU : Srv := ⟨1337, "ON", "rescue-ubuntu1804", "h", false, [], none⟩

/-- Witness for C4's amended claim: `rescue-ubuntu1804` issues a rescue
boot with image `ubuntu1804`. -/
theorem C4_reboot_rescue_amended_witness :
    (serverStateOp true svRescueU "reboot").2.2 =
      [ApiCall.bootRescue 1337 "ubuntu1804"] := by
  have h := (C4_reboot_rescue_amended svRescueU true).2.2 (by decide)
  exact h.trans (by decide)

/-- C10: `bmc_close` nulls the recorded BMC session key before issuing
the DELETE call, so the key is dropped locally even when the remote close
fails (the returned value is the call's outcome). -/
theorem C10_bmc_close (sv : Srv) (session_key : String) (ok : Bool) :
    (bmcCloseOp ok sv session_key).2.1.bmcKey = none ∧
    (bmcCloseOp ok sv session_key).2.2 = [ApiCall.bmcCloseCall session_key] ∧
    (bmcCloseOp false sv session_key).1 = false :=
  ⟨rfl, rfl, rfl⟩

theorem filterMap_if_map_snd (m : String → Option Nat) (addOk : String → Bool) :
    ∀ l : List String,
      (l.filterMap fun n => if addOk n then some ((m n).getD 0, n) else none).map Prod.snd
        = l.filter addOk := by
  intro l
  induction l with
  | nil => rfl
  | cons n t ih =>
    cases h : addOk n with
    | true => simp [List.filterMap_cons, List.filter_cons, h, ih]
    | false => simp [List.filterMap_cons, List.filter_cons, h, ih]

/-- C3: provided every joined name resolves in the fetched name→id map
(otherwise the addition loop raises `KeyError`), the sync returns a
result whose flag is true iff every removal call and every addition call
succeeded, and the recorded group list keeps exactly the adds that
succeeded. -/
theorem C3_sync_success_iff (gs : List RpnGroup) (sid : Nat) (join_groups : List String)
    (createOk : String → Bool) (removeOk : Nat → Bool) (addOk : String → Bool) (fresh : Nat)
    (hsub : ∀ n, n ∈ join_groups → (groupsNamesToIds gs n).isSome = true) :
    ∃ out, rpnGroupsSync gs sid join_groups createOk removeOk addOk fresh = some out ∧
      (out.success = true ↔
        ((serverGroupIds gs sid).all removeOk = true ∧ join_groups.all addOk = true)) ∧
      out.groups.map Prod.snd = join_groups.filter addOk := by
  simp only [rpnGroupsSync]
  rw [doRemoves_eq, doAdds_eq _ _ _ _ _ hsub]
  refine ⟨_, rfl, ?_, ?_⟩
  · simp [Bool.and_eq_true]
  · exact filterMap_if_map_snd _ _ _

theorem doRemoves_all_true (sid : Nat) :
    ∀ (l : List Nat) (r : List RpnGroup),
      doRemoves sid (fun _ => true) l r =
        (r.map fun g => l.foldl (remStep sid) g, true) := by
  intro l
  induction l with
  | nil => intro r; simp [doRemoves]
  | cons gid t ih =>
    intro r
    simp only [doRemoves, if_true, ih, removeServerFromGroup, List.map_map, Bool.and_self,
      List.foldl_cons]
    rfl

theorem doAdds_all_true (m : String → Option Nat) (sid : Nat) :
    ∀ (l : List String) (r : List RpnGroup),
      (∀ n, n ∈ l → (m n).isSome = true) →
      doAdds m sid (fun _ => true) l r = some
        (r.map (fun g => (l.map fun n => (m n).getD 0).foldl (addStep sid) g),
         l.map (fun n => ((m n).getD 0, n)),
         true) := by
  intro l
  induction l with
  | nil => intro r _; simp [doAdds]
  | cons n t ih =>
    intro r h
    rcases Option.isSome_iff_exists.mp (h n (List.mem_cons_self n t)) with ⟨gid, hv⟩
    have ht : ∀ n', n' ∈ t → (m n').isSome = true :=
      fun n' hn' => h n' (List.mem_cons_of_mem n hn')
    simp only [doAdds, hv, if_true, ih _ ht, addServerToGroup, List.map_map, List.map_cons,
      List.foldl_cons, Option.getD_some, Bool.and_self, List.singleton_append]
    rfl

/-- The reconciler run with every remote call succeeding: no creation is
needed when every joined name resolves, the server is removed from every
current group and added to every joined group, and all joined groups are
recorded. -/
theorem rpnGroupsSync_all_true (gs : List RpnGroup) (sid fresh : Nat) (ds : List String)
    (hsome : ∀ n, n ∈ ds → (groupsNamesToIds gs n).isSome = true) :
    rpnGroupsSync gs sid ds (fun _ => true) (fun _ => true) (fun _ => true) fresh =
      some ⟨gs.map fun g =>
              (ds.map fun n => (groupsNamesToIds gs n).getD 0).foldl (addStep sid)
                ((serverGroupIds gs sid).foldl (remStep sid) g),
            ds.map fun n => ((groupsNamesToIds gs n).getD 0, n),
            true⟩ := by
  simp only [rpnGroupsSync]
  rw [doCreates_noop _ _ _ _ _ _ hsome, doRemoves_all_true, doAdds_all_true _ _ _ _ hsome]
  simp only [List.map_map]
  rfl

/-- C1: with distinct remote group ids and names, every desired name
naming an existing remote group, and every remote call succeeding, the
sync leaves the server a member of exactly the desired groups, records
exactly the desired groups (all adds succeeded), and returns true. -/
theorem C1_reconciler (gs : List RpnGroup) (sid fresh : Nat) (ds : List String)
    (hid : (gs.map fun g => g.id).Nodup) (hname : (gs.map fun g => g.name).Nodup)
    (hsub : ∀ n, n ∈ ds → ∃ g, g ∈ gs ∧ g.name = n) :
    ∃ out, rpnGroupsSync gs sid ds (fun _ => true) (fun _ => true) (fun _ => true) fresh
        = some out ∧
      (∀ g, g ∈ out.remote → (sid ∈ g.members ↔ g.name ∈ ds)) ∧
      out.groups.map Prod.snd = ds ∧ out.success = true := by
  have hsome : ∀ n, n ∈ ds → (groupsNamesToIds gs n).isSome = true := by
    intro n hn
    rcases hsub n hn with ⟨g, hg, hgn⟩
    rw [← hgn]
    exact groupsNamesToIds_isSome_of_mem gs g hg
  refine ⟨_, rpnGroupsSync_all_true gs sid fresh ds hsome, ?_, ?_, rfl⟩
  · intro g hg
    rcases List.mem_map.mp hg with ⟨g0, hg0, rfl⟩
    have hnm : ((ds.map fun n => (groupsNamesToIds gs n).getD 0).foldl (addStep sid)
        ((serverGroupIds gs sid).foldl (remStep sid) g0)).name = g0.name :=
      ((foldl_addStep_id sid _ _).2).trans ((foldl_remStep_id sid _ _).2)
    rw [hnm, mem_foldl_addStep, mem_foldl_remStep, (foldl_remStep_id sid _ _).1]
    constructor
    · rintro (⟨hm, hnot⟩ | hD)
      · exact absurd (mem_serverGroupIds gs sid g0 hg0 hm) hnot
      · rcases List.mem_map.mp hD with ⟨n, hn, heq⟩
        rcases Option.isSome_iff_exists.mp (hsome n hn) with ⟨i, hi⟩
        rw [hi] at heq
        rcases groupsNamesToIds_eq_some gs n i hi with ⟨g', hg', hgn, hgi⟩
        have hg0' : g' = g0 :=
          List.inj_on_of_nodup_map hid hg' hg0 (by
            show g'.id = g0.id
            rw [hgi]
            exact heq)
        rw [← hg0', hgn]
        exact hn
    · intro hmem
      right
      rcases Option.isSome_iff_exists.mp (hsome g0.name hmem) with ⟨i, hi⟩
      rcases groupsNamesToIds_eq_some gs g0.name i hi with ⟨g', hg', hgn, hgi⟩
      have hgg : g' = g0 := List.inj_on_of_nodup_map hname hg' hg0 hgn
      refine List.mem_map.mpr ⟨g0.name, hmem, ?_⟩
      rw [hi]
      show i = g0.id
      rw [← hgi, hgg]
  · show (ds.map fun n => ((groupsNamesToIds gs n).getD 0, n)).map Prod.snd = ds
    rw [List.map_map]
    have hcomp : (Prod.snd ∘ fun n : String => ((groupsNamesToIds gs n).getD 0, n)) =
        fun n : String => n := rfl
    rw [hcomp]
    simp

def gs1 : List RpnGroup := [⟨1, "A", [7]⟩, ⟨2, "B", [7]⟩, ⟨3, "C", []⟩]

/-- Witness for C1: current groups {A,B}, desired {B,C}, all calls
succeed — the server ends in exactly {B,C} and records both. -/
theorem C1_reconciler_witness :
    ∃ out, rpnGroupsSync gs1 7 ["B", "C"] (fun _ => true) (fun _ => true) (fun _ => true) 10
        = some out ∧
      (∀ g, g ∈ out.remote → (7 ∈ g.members ↔ g.name ∈ (["B", "C"] : List String))) ∧
      out.groups.map Prod.snd = ["B", "C"] ∧ out.success = true :=
  C1_reconciler gs1 7 10 ["B", "C"] (by decide) (by decide) (by decide)

def gs3 : List RpnGroup := [⟨1, "A", [7]⟩, ⟨2, "B", [7]⟩, ⟨3, "C", []⟩]

/-- Witness for C3: add to "B" succeeds, add to "C" fails, so the flag is
false and only "B" is recorded. -/
theorem C3_sync_success_iff_witness :
    ∃ out, rpnGroupsSync gs3 7 ["B", "C"] (fun _ => true) (fun _ => true)
        (fun n => n == "B") 10 = some out ∧
      (out.success = true ↔
        ((serverGroupIds gs3 7).all (fun _ => true) = true ∧
          (["B", "C"] : List String).all (fun n => n == "B") = true)) ∧
      out.groups.map Prod.snd = (["B", "C"] : List String).filter (fun n => n == "B") :=
  C3_sync_success_iff gs3 7 ["B", "C"] (fun _ => true) (fun _ => true)
    (fun n => n == "B") 10 (by decide)

/-- C9: a falsy server id (absent, or the integer 0) makes `Server.find`
return `False` with no API call, so `core` fails with "Unable to find the
server" whatever the remote side would have answered — even for an
existing server with id 0. -/
theorem C9_falsy_id (p : CoreParams) (o : ApiOracle) (fuel : Nat)
    (h : p.server_id = none ∨ p.server_id = some 0) :
    findServer p.server_id o.findResult = (none, []) ∧
    coreRun p o fuel = CoreOutcome.failed "Unable to find the server" := by
  have ht : idTruthy p.server_id = false := by
    rcases h with h | h <;> rw [h] <;> rfl
  have hfind : findServer p.server_id o.findResult = (none, []) := by
    unfold findServer
    rw [ht]
    simp
  refine ⟨hfind, ?_⟩
  unfold coreRun
  rw [hfind]

def svGhost : Srv := ⟨0, "ON", "normal", "ghost", false, [], none⟩

def params9 : CoreParams := ⟨some 0, none, none, false, none, none, none, none⟩

def oracle9 : ApiOracle :=
  ⟨some svGhost, true, [], fun _ => true, fun _ => true, fun _ => true, 0, [], none,
   fun _ => true, true, true⟩

/-- Witness for C9: id 0 with a server that does exist remotely. -/
theorem C9_falsy_id_witness :
    findServer params9.server_id oracle9.findResult = (none, []) ∧
    coreRun params9 oracle9 0 = CoreOutcome.failed "Unable to find the server" :=
  C9_falsy_id params9 oracle9 0 (Or.inr rfl)

def params5 : CoreParams :=
  ⟨some 1337, some "newname", none, false, none, none, some "normal", some "reboot"⟩

def sv5 : Srv := ⟨1337, "ON", "normal", "oldname", false, [], none⟩

def oracle5 : ApiOracle :=
  ⟨some sv5, true, [], fun _ => true, fun _ => true, fun _ => true, 0, [], none,
   fun _ => true, true, false⟩

/-- C5 (code bug): a successful rename sets the changed flag, but a later
failing reboot overwrites it (`self.changed = self.api(...)`), so `core`
exits with changed = false although the rename mutated remote state. -/
theorem C5_changed_reset_code_bug :
    coreRun params5 oracle5 0 =
      CoreOutcome.finished false ⟨1337, "ON", "normal", "newname", false, [], none⟩
        [OpResult.hostnameR true, OpResult.stateR false] := by
  decide

end OnlineNet
